import Mathlib

set_option autoImplicit false

/-!
Shallow embedding of the PhotoBot repository (src/bot.py, src/main.py).

The bot reacts to chat events: `on_message` forwards qualifying image
attachments to a remote photo database over HTTP, `on_raw_reaction_add`
handles reaction-driven deletion, `update_capture` maintains a JSON-backed
per-channel capture registry, and `capture_album` / `stop_capture_album`
are the user commands.  Library helpers that the source relies on
(`urllib.parse.urlparse`, `pathlib.Path.suffix`, `json.dump` / `json.load`,
`datetime.isoformat`) are modelled below following the CPython semantics
the source actually exercises.  HTTP responses are supplied by oracles
(functions from request to status code), since the remote service is an
external collaborator.
-/

/-! ### Character and list helpers -/

/-- Characters allowed in a URL scheme after the first (CPython
`urllib.parse.scheme_chars`): ASCII letters, digits, `+`, `-`, `.`. -/
def schemeChar (c : Char) : Bool :=
  c.isAlpha || c.isDigit || c == '+' || c == '-' || c == '.'

/-- Split a character list at the first occurrence of any stop character.
Returns the segment before the stop and the rest beginning with the stop
character itself (empty if no stop occurs). -/
def takeUntilMem (stops : List Char) : List Char → List Char × List Char
  | [] => ([], [])
  | c :: cs =>
    if stops.contains c then ([], c :: cs)
    else
      let p := takeUntilMem stops cs
      (c :: p.1, p.2)

/-- Split at the first occurrence of `sep`: the part before, and `some`
part after (without the separator) when `sep` occurs. -/
def splitFirst (sep : Char) (s : List Char) : List Char × Option (List Char) :=
  match takeUntilMem [sep] s with
  | (before, []) => (before, none)
  | (before, _ :: after) => (before, some after)

/-! ### urllib.parse.urlparse (the parts the source uses) -/

structure UrlParts where
  scheme : List Char
  netloc : List Char
  path : List Char
  query : List Char
  fragment : List Char
deriving DecidableEq

/-- Scheme recognition of CPython `urlsplit`: a leading ASCII letter,
scheme characters up to a colon.  Returns `(scheme lowercased, rest)`;
when no scheme is present the scheme is empty and the rest is the whole
input. -/
def splitScheme (url : List Char) : List Char × List Char :=
  match takeUntilMem [':'] url with
  | (before, ':' :: t) =>
    match before with
    | [] => ([], url)
    | c :: cs =>
      if c.isAlpha && (c :: cs).all schemeChar then ((c :: cs).map Char.toLower, t)
      else ([], url)
  | _ => ([], url)

/-- Netloc extraction of CPython `urlsplit`: after `//`, up to the next
`/`, `?` or `#`.  Returns `(netloc, rest)`. -/
def splitNetloc (s : List Char) : List Char × List Char :=
  match s with
  | '/' :: '/' :: t => takeUntilMem ['/', '?', '#'] t
  | _ => ([], s)

/-- CPython `urllib.parse.urlsplit`: scheme, then netloc, then fragment,
then query; the path is what remains. -/
def urlsplit (url : List Char) : UrlParts :=
  let sp := splitScheme url
  let nl := splitNetloc sp.2
  let fr := splitFirst '#' nl.2
  let qu := splitFirst '?' fr.1
  { scheme := sp.1, netloc := nl.1, path := qu.1,
    query := (qu.2.getD []), fragment := (fr.2.getD []) }

/-- Schemes for which `urlparse` splits `;parameters` off the path
(CPython `uses_params`). -/
def usesParams : List (List Char) :=
  ["", "ftp", "hdl", "prospero", "http", "imap", "https", "shttp", "rtsp",
   "rtspu", "sip", "sips", "mms", "sftp", "tel"].map String.data

/-- CPython `urllib.parse._splitparams` applied to a path: drop the part
after the first `;` of the segment following the last `/` (or of the whole
path when it has no `/`). -/
def dropParams (p : List Char) : List Char :=
  match splitFirst '/' p.reverse with
  | (revSeg, some revBefore) =>
    revBefore.reverse ++ '/' :: (takeUntilMem [';'] revSeg.reverse).1
  | (_, none) => (takeUntilMem [';'] p).1

/-- The `path` attribute of `urllib.parse.urlparse(url)`. -/
def urlparsePath (url : List Char) : List Char :=
  if (urlsplit url).scheme ∈ usesParams ∧ ';' ∈ (urlsplit url).path then
    dropParams (urlsplit url).path
  else (urlsplit url).path

/-! ### pathlib.Path name and suffix -/

/-- Split a character list on a separator character (keeping empty
segments, as `str.split` does). -/
def splitOnChar (sep : Char) : List Char → List (List Char)
  | [] => [[]]
  | c :: cs =>
    if c = sep then [] :: splitOnChar sep cs
    else
      match splitOnChar sep cs with
      | [] => [[c]]
      | g :: gs => (c :: g) :: gs

/-- `pathlib.PurePosixPath(p).name`: the last path component, after
dropping empty components and `.` components. -/
def pathName (p : List Char) : List Char :=
  (((splitOnChar '/' p).filter
      (fun seg => !seg.isEmpty && !(seg == ['.']))).getLast?).getD []

/-- `pathlib.PurePosixPath(p).suffix`: the final component's extension
from its last dot, empty when the dot is leading or trailing or absent. -/
def pathSuffix (p : List Char) : List Char :=
  let n := pathName p
  match splitFirst '.' n.reverse with
  | (ext, some stem) =>
    if ext ≠ [] ∧ stem ≠ [] then '.' :: ext.reverse else []
  | (_, none) => []

/-- `str.lower` restricted to ASCII, which is all the source compares
against (the allow-list is ASCII). -/
def lowerL (s : List Char) : List Char := s.map Char.toLower

/-! ### JSON values, serialisation (json.dump) and parsing (json.load) -/

/-- JSON values as CPython `json` produces them; numbers keep their
source literal (no numeric claim depends on their value). -/
inductive Json where
  | null
  | bool (b : Bool)
  | num (lit : String)
  | str (s : String)
  | arr (xs : List Json)
  | obj (kvs : List (String × Json))

/-- Exceptions of the Python fragments modelled here. -/
inductive PyError where
  | typeError
  | valueError
  | jsonDecodeError
deriving DecidableEq

/-- Lowercase hexadecimal digit, as `'\\u%04x' % n` uses. -/
def hexDigitChar (n : Nat) : Char :=
  if n < 10 then Char.ofNat ('0'.toNat + n) else Char.ofNat ('a'.toNat + (n - 10))

/-- `\uXXXX` escape for a code unit. -/
def uEscape (n : Nat) : List Char :=
  ['\\', 'u', hexDigitChar (n / 4096 % 16), hexDigitChar (n / 256 % 16),
   hexDigitChar (n / 16 % 16), hexDigitChar (n % 16)]

/-- Escaping of one character by `json.dump` (default `ensure_ascii=True`):
everything outside printable ASCII is escaped. -/
def escapeJsonChar (c : Char) : List Char :=
  if c = '"' then ['\\', '"']
  else if c = '\\' then ['\\', '\\']
  else if c = '\x08' then ['\\', 'b']
  else if c = '\x0c' then ['\\', 'f']
  else if c = '\n' then ['\\', 'n']
  else if c = '\x0d' then ['\\', 'r']
  else if c = '\t' then ['\\', 't']
  else if c.toNat < 0x20 then uEscape c.toNat
  else if c.toNat < 0x7f then [c]
  else if c.toNat ≤ 0xffff then uEscape c.toNat
  else
    let v := c.toNat - 0x10000
    uEscape (0xd800 + v / 0x400) ++ uEscape (0xdc00 + v % 0x400)

def dumpStringL (s : String) : List Char :=
  '"' :: (s.data.map escapeJsonChar).flatten ++ ['"']

def dumpBoolL (b : Bool) : List Char :=
  if b then "true".data else "false".data

/-- JSON whitespace, as `json`'s `WHITESPACE` regex. -/
def isJsonWs (c : Char) : Bool :=
  c == ' ' || c == '\t' || c == '\n' || c == '\x0d'

def skipWs : List Char → List Char
  | [] => []
  | c :: cs => if isJsonWs c then skipWs cs else c :: cs

def hexVal (c : Char) : Option Nat :=
  if '0' ≤ c ∧ c ≤ '9' then some (c.toNat - '0'.toNat)
  else if 'a' ≤ c ∧ c ≤ 'f' then some (c.toNat - 'a'.toNat + 10)
  else if 'A' ≤ c ∧ c ≤ 'F' then some (c.toNat - 'A'.toNat + 10)
  else none

def parseHex4 : List Char → Option (Nat × List Char)
  | a :: b :: c :: d :: rest =>
    match hexVal a, hexVal b, hexVal c, hexVal d with
    | some x, some y, some z, some w => some (4096 * x + 256 * y + 16 * z + w, rest)
    | _, _, _, _ => none
  | _ => none

/-- Decoding of one backslash escape (`e` is the character after the
backslash).  A `\uXXXX` high surrogate followed by a low surrogate is
combined; an unpaired surrogate has no Lean `Char` (Python would keep it)
and decodes to `Char.ofNat`'s fallback. -/
def parseEscapeChar (e : Char) (r : List Char) : Option (Char × List Char) :=
  if e = '"' then some ('"', r)
  else if e = '\\' then some ('\\', r)
  else if e = '/' then some ('/', r)
  else if e = 'b' then some ('\x08', r)
  else if e = 'f' then some ('\x0c', r)
  else if e = 'n' then some ('\n', r)
  else if e = 'r' then some ('\x0d', r)
  else if e = 't' then some ('\t', r)
  else if e = 'u' then
    match parseHex4 r with
    | none => none
    | some (n, r3) =>
      if 0xd800 ≤ n ∧ n ≤ 0xdbff then
        match r3 with
        | '\\' :: 'u' :: r4 =>
          match parseHex4 r4 with
          | some (m, r5) =>
            if 0xdc00 ≤ m ∧ m ≤ 0xdfff then
              some (Char.ofNat (0x10000 + (n - 0xd800) * 0x400 + (m - 0xdc00)), r5)
            else some (Char.ofNat n, '\\' :: 'u' :: r4)
          | none => some (Char.ofNat n, '\\' :: 'u' :: r4)
        | _ => some (Char.ofNat n, r3)
      else some (Char.ofNat n, r3)
  else none

/-- Body of a JSON string after the opening quote (strict mode: raw
control characters are rejected). -/
def parseStringBody : Nat → List Char → Option (List Char × List Char)
  | 0, _ => none
  | _, [] => none
  | fuel + 1, c :: rest =>
    if c = '"' then some ([], rest)
    else if c = '\\' then
      match rest with
      | [] => none
      | e :: r2 =>
        match parseEscapeChar e r2 with
        | none => none
        | some (ch, r3) =>
          (parseStringBody fuel r3).map (fun p => (ch :: p.1, p.2))
    else if c.toNat < 0x20 then none
    else (parseStringBody fuel rest).map (fun p => (c :: p.1, p.2))

/-- JSON number literal per CPython's `NUMBER_RE`
(`-?(0|[1-9]\d*)(\.\d+)?([eE][+-]?\d+)?`); returns the matched literal and
the rest.  Trailing-garbage cases are left for the caller to reject. -/
def parseNumber (s : List Char) : Option (List Char × List Char) :=
  let sign : List Char × List Char :=
    match s with
    | '-' :: t => (['-'], t)
    | _ => ([], s)
  let intPart : Option (List Char × List Char) :=
    match sign.2 with
    | '0' :: t => some (['0'], t)
    | c :: t =>
      if c.isDigit then
        let p := t.span Char.isDigit
        some (c :: p.1, p.2)
      else none
    | [] => none
  match intPart with
  | none => none
  | some (ip, r1) =>
    let frac : List Char × List Char :=
      match r1 with
      | '.' :: t =>
        match t.span Char.isDigit with
        | ([], _) => ([], r1)
        | (ds, r) => ('.' :: ds, r)
      | _ => ([], r1)
    let expPart : List Char × List Char :=
      match frac.2 with
      | e :: t =>
        if e = 'e' ∨ e = 'E' then
          let se : List Char × List Char :=
            match t with
            | '+' :: t2 => (['+'], t2)
            | '-' :: t2 => (['-'], t2)
            | _ => ([], t)
          match se.2.span Char.isDigit with
          | ([], _) => ([], frac.2)
          | (ds, r) => (e :: se.1 ++ ds, r)
        else ([], frac.2)
      | [] => ([], frac.2)
    some (sign.1 ++ ip ++ frac.1 ++ expPart.1, expPart.2)

mutual

/-- One JSON value (CPython `json.scanner` order: literals, string,
object, array, number, then the `NaN` / `Infinity` constants). -/
def parseValue : Nat → List Char → Option (Json × List Char)
  | 0, _ => none
  | fuel + 1, s =>
    match skipWs s with
    | [] => none
    | 'n' :: 'u' :: 'l' :: 'l' :: rest => some (.null, rest)
    | 't' :: 'r' :: 'u' :: 'e' :: rest => some (.bool true, rest)
    | 'f' :: 'a' :: 'l' :: 's' :: 'e' :: rest => some (.bool false, rest)
    | 'N' :: 'a' :: 'N' :: rest => some (.num "NaN", rest)
    | 'I' :: 'n' :: 'f' :: 'i' :: 'n' :: 'i' :: 't' :: 'y' :: rest =>
      some (.num "Infinity", rest)
    | '-' :: 'I' :: 'n' :: 'f' :: 'i' :: 'n' :: 'i' :: 't' :: 'y' :: rest =>
      some (.num "-Infinity", rest)
    | '"' :: rest =>
      (parseStringBody fuel rest).map (fun p => (.str (String.mk p.1), p.2))
    | '\x7b' :: rest =>
      (match skipWs rest with
       | '\x7d' :: r => some (.obj [], r)
       | _ => (parseObjMembers fuel rest).map (fun p => (.obj p.1, p.2)))
    | '[' :: rest =>
      (match skipWs rest with
       | ']' :: r => some (.arr [], r)
       | _ => (parseArrElems fuel rest).map (fun p => (.arr p.1, p.2)))
    | other =>
      (parseNumber other).map (fun p => (.num (String.mk p.1), p.2))

/-- Members of a JSON object after the opening brace (at least one). -/
def parseObjMembers : Nat → List Char → Option (List (String × Json) × List Char)
  | 0, _ => none
  | fuel + 1, s =>
    match skipWs s with
    | '"' :: rest =>
      match parseStringBody fuel rest with
      | none => none
      | some (key, r1) =>
        match skipWs r1 with
        | ':' :: r2 =>
          match parseValue fuel r2 with
          | none => none
          | some (v, r3) =>
            match skipWs r3 with
            | ',' :: r4 =>
              (parseObjMembers fuel r4).map
                (fun p => ((String.mk key, v) :: p.1, p.2))
            | '\x7d' :: r4 => some ([(String.mk key, v)], r4)
            | _ => none
        | _ => none
    | _ => none

/-- Elements of a JSON array after the opening bracket (at least one). -/
def parseArrElems : Nat → List Char → Option (List Json × List Char)
  | 0, _ => none
  | fuel + 1, s =>
    match parseValue fuel s with
    | none => none
    | some (v, r1) =>
      match skipWs r1 with
      | ',' :: r2 => (parseArrElems fuel r2).map (fun p => (v :: p.1, p.2))
      | ']' :: r2 => some ([v], r2)
      | _ => none

end

/-- `json.loads` / `json.load`: a single JSON document, whitespace
allowed around it, nothing after it. -/
def jsonParse (s : String) : Option Json :=
  match parseValue (2 * s.length + 2) s.data with
  | some (v, rest) => if skipWs rest = [] then some v else none
  | none => none

/-! ### The capture registry (self.channels) and its backing file -/

/-- In-memory `self.channels`: a mapping from channel id to capture flag
(Python dict with string keys, insertion-ordered, unique keys). -/
abbrev Registry := List (String × Bool)

/-- `self.channels[channel_id] = capture`: dict update (replace the
binding in place, else append). -/
def setKey : Registry → String → Bool → Registry
  | [], k, v => [(k, v)]
  | (k', v') :: rest, k, v =>
    if k' = k then (k, v) :: rest else (k', v') :: setKey rest k v

/-- `self.channels.get(channel_id, False)`. -/
def channelsGet : Registry → String → Bool
  | [], _ => false
  | (k', v) :: rest, k => if k' = k then v else channelsGet rest k

/-- `json.dump(self.channels, f)` output (default separators `, ` and
`: `). -/
def dumpEntryL (e : String × Bool) : List Char :=
  dumpStringL e.1 ++ ':' :: ' ' :: dumpBoolL e.2

def dumpEntriesL : Registry → List Char
  | [] => []
  | e :: [] => dumpEntryL e
  | e :: e2 :: es => dumpEntryL e ++ ',' :: ' ' :: dumpEntriesL (e2 :: es)

def dumpChannelsL (m : Registry) : List Char :=
  '\x7b' :: dumpEntriesL m ++ ['\x7d']

def dumpChannels (m : Registry) : String :=
  String.mk (dumpChannelsL m)

/-- The bot's durable local state: the in-memory map and the contents of
`channels.json` (`none` = file absent). -/
structure RegistryState where
  channels : Registry
  channelsFile : Option String
deriving DecidableEq

/-- `PhotoBot.update_capture` (bot.py lines 131-143): update the
in-memory dict, then rewrite the whole backing file. -/
def update_capture (st : RegistryState) (channel_id : String) (capture : Bool) :
    RegistryState :=
  let m := setKey st.channels channel_id capture
  { channels := m, channelsFile := some (dumpChannels m) }

/-- Registry initialisation in `PhotoBot.__init__` (bot.py lines 67-72):
missing file gives the empty dict; an existing file is `json.load`ed with
no exception handler, so a decode error propagates. -/
def initChannels (file : Option String) : Except PyError Json :=
  match file with
  | none => .ok (.obj [])
  | some s =>
    match jsonParse s with
    | some v => .ok v
    | none => .error .jsonDecodeError

/-! ### datetime (the fragment on_message uses) -/

structure PyDatetime where
  year : Nat
  month : Nat
  day : Nat
  hour : Nat
  minute : Nat
  second : Nat
  microsecond : Nat
deriving DecidableEq

/-- Zero-padded decimal, as `datetime.isoformat` prints fields. -/
def padNum (w n : Nat) : String :=
  let s := toString n
  String.mk (List.replicate (w - s.length) '0') ++ s

/-- `datetime.isoformat()` (no tzinfo; microseconds omitted when 0,
which is the case after `.replace(microsecond=0)`). -/
def isoformat (d : PyDatetime) : String :=
  padNum 4 d.year ++ "-" ++ padNum 2 d.month ++ "-" ++ padNum 2 d.day ++ "T" ++
  padNum 2 d.hour ++ ":" ++ padNum 2 d.minute ++ ":" ++ padNum 2 d.second ++
  (if d.microsecond = 0 then "" else "." ++ padNum 6 d.microsecond)

/-! ### The PhotoBot object and its HTTP call sites -/

/-- The immutable attributes `PhotoBot.__init__` derives (bot.py lines
63-66), plus the bot's own user id (`self.user`). -/
structure PhotoBot where
  photo_url : String
  album_url : String
  delete_photo_url : String
  image_suffixes : List String
  user : Nat

/-- Endpoint derivation in `PhotoBot.__init__` (bot.py lines 63-66):
plain concatenation of the base database URL with fixed suffixes. -/
def PhotoBot.init (db_url : String) (user : Nat) : PhotoBot :=
  { photo_url := db_url ++ "photo"
    album_url := db_url ++ "album"
    delete_photo_url := db_url ++ "delete_photo_by_url"
    image_suffixes := [".jpg", ".jpeg", ".webp", ".png"]
    user := user }

/-- An outbound `requests.post`: target URL and the dict serialised as
the body. -/
structure HttpPost where
  url : String
  body : List (String × Json)

/-- The POST `PhotoBot.handle_image` issues (bot.py lines 98-99). -/
def handle_image_post (bot : PhotoBot)
    (image_url channel_id uploader_id upload_time caption message_id : String) :
    HttpPost :=
  { url := bot.photo_url
    body := [("url", .str image_url), ("channelId", .str channel_id),
             ("uploaderId", .str uploader_id), ("uploadTime", .str upload_time),
             ("caption", .str caption), ("messageId", .str message_id)] }

/-- `PhotoBot.handle_image` (bot.py lines 77-105): true iff the response
status is 200.  `respond` is the remote service. -/
def handle_image (bot : PhotoBot) (respond : HttpPost → Nat)
    (image_url channel_id uploader_id upload_time caption message_id : String) :
    Bool :=
  respond (handle_image_post bot image_url channel_id uploader_id upload_time
    caption message_id) == 200

/-- The POST `PhotoBot.update_channel` issues (bot.py lines 120-121). -/
def update_channel_post (bot : PhotoBot) (channel_id album_name : String)
    (members : List String) : HttpPost :=
  { url := bot.album_url
    body := [("channelId", .str channel_id), ("name", .str album_name),
             ("members", .arr (members.map .str))] }

/-- `PhotoBot.update_channel` (bot.py lines 108-128): on 200, the
`albumUrl` field of the JSON response (supplied by the oracle), else
`None`. -/
def update_channel (bot : PhotoBot) (respond : HttpPost → Nat × Option String)
    (channel_id album_name : String) (members : List String) : Option String :=
  let r := respond (update_channel_post bot channel_id album_name members)
  if r.1 == 200 then r.2 else none

/-- The POST `PhotoBot.delete_photo` issues (bot.py lines 157-158).
Note the source posts to `self.album_url`, not `self.delete_photo_url`. -/
def delete_photo_post (bot : PhotoBot) (image_url requester_id : String) :
    HttpPost :=
  { url := bot.album_url
    body := [("photoId", .str image_url), ("requesterId", .str requester_id)] }

/-- `PhotoBot.delete_photo` (bot.py lines 146-164): returns the raw
status code. -/
def delete_photo (bot : PhotoBot) (respond : HttpPost → Nat)
    (image_url requester_id : String) : Nat :=
  respond (delete_photo_post bot image_url requester_id)

/-! ### on_message (bot.py lines 170-205) -/

structure Attachment where
  url : String
deriving DecidableEq

structure Message where
  author : Nat
  channel_id : Nat
  id : Nat
  content : String
  created_at : PyDatetime
  attachments : List Attachment
deriving DecidableEq

/-- The positional arguments of one `handle_image` call from
`on_message`. -/
structure ImageRecord where
  image_url : String
  channel_id : String
  uploader_id : String
  upload_time : String
  caption : String
  message_id : String
deriving DecidableEq

/-- Observable effects of one `on_message` run: the `handle_image`
invocations, the reactions added to the message, and whether
`process_commands` ran. -/
structure MessageEffects where
  handled : List ImageRecord
  reactions : List String
  processed_commands : Bool
deriving DecidableEq

/-- The attachment filter of bot.py line 190: keep an attachment when
`Path(urlparse(a.url).path).suffix.lower()` is in the allow-list. -/
def attachmentQualifies (bot : PhotoBot) (a : Attachment) : Bool :=
  bot.image_suffixes.contains (String.mk (lowerL (pathSuffix (urlparsePath a.url.data))))

/-- `PhotoBot.on_message` (bot.py lines 170-205).  `now` is the wall
clock: line 193 writes `message.created_at.utcnow()`, and `utcnow` is a
classmethod, so the expression ignores `created_at` and yields the
current time.  `respond` is the photo endpoint. -/
def on_message (bot : PhotoBot) (channels : Registry) (msg : Message)
    (now : PyDatetime) (respond : HttpPost → Nat) : MessageEffects :=
  if msg.author == bot.user then
    { handled := [], reactions := [], processed_commands := false }
  else
    -- the source binds channel_id = str(message.channel.id); it is inlined here
    if !(channelsGet channels (toString msg.channel_id)) || msg.attachments.isEmpty then
      { handled := [], reactions := [], processed_commands := true }
    else
      let image_urls := (msg.attachments.filter (attachmentQualifies bot)).map
        (fun a => String.mk (urlparsePath a.url.data))
      let uploader_id := toString msg.author
      let upload_time := isoformat { now with microsecond := 0 } ++ "Z"
      let caption := msg.content.take 100
      let message_id := toString msg.id
      let records := image_urls.map (fun u =>
        ImageRecord.mk u (toString msg.channel_id) uploader_id upload_time caption message_id)
      let successes := records.map (fun r =>
        handle_image bot respond r.image_url r.channel_id r.uploader_id
          r.upload_time r.caption r.message_id)
      { handled := records
        reactions := if successes.any id then ["📸"] else []
        processed_commands := true }

/-! ### on_raw_reaction_add (bot.py lines 208-234)

The gating expression on line 226 is Python, modelled by a small value
fragment: `any([...])` yields a `bool`, and `x in b` for a bool `b`
raises `TypeError`. -/

inductive PyVal where
  | bool (b : Bool)
  | str (s : String)
  | tuple (xs : List PyVal)
  | list (xs : List PyVal)

mutual

/-- Python `==` on the value fragment. -/
def pyEq : PyVal → PyVal → Bool
  | .bool a, .bool b => a == b
  | .str a, .str b => a == b
  | .tuple a, .tuple b => pyEqList a b
  | .list a, .list b => pyEqList a b
  | _, _ => false

def pyEqList : List PyVal → List PyVal → Bool
  | [], [] => true
  | a :: as, b :: bs => pyEq a b && pyEqList as bs
  | _, _ => false

end

def pyTruthy : PyVal → Bool
  | .bool b => b
  | .str s => !s.isEmpty
  | .tuple xs => !xs.isEmpty
  | .list xs => !xs.isEmpty

/-- Python `any(xs)`: a `bool`. -/
def pyAny (xs : List PyVal) : PyVal :=
  .bool (xs.any pyTruthy)

/-- Python `x in y`: membership for lists and tuples, substring for
strings, `TypeError` for non-iterables such as `bool`. -/
def pyIn (x : PyVal) : PyVal → Except PyError Bool
  | .list xs => .ok (xs.any (pyEq x))
  | .tuple xs => .ok (xs.any (pyEq x))
  | .str s =>
    match x with
    | .str sub => .ok (decide (List.IsInfix sub.data s.data))
    | _ => .error .typeError
  | .bool _ => .error .typeError

structure MessageReaction where
  emoji : String
  me : Bool
deriving DecidableEq

/-- The message a reaction event refers to, as fetched on bot.py line
223 (the un-awaited fetch is abstracted: the resolved message is passed
in). -/
structure FetchedMessage where
  reactions : List MessageReaction
  attachments : List Attachment
deriving DecidableEq

structure ReactionPayload where
  emoji : String
  user_id : Nat
  member_is_bot : Bool
deriving DecidableEq

/-- One `delete_photo` invocation (its two arguments). -/
structure DeleteCall where
  image_url : String
  requester_id : String
deriving DecidableEq

/-- The deletion comprehension of bot.py lines 231-232: every attachment
whose `Path(a.url).suffix.lower()` (the full URL, query string included)
is in the allow-list is passed to `delete_photo` with the reacting user's
id. -/
def reaction_deletion_calls (bot : PhotoBot) (message : FetchedMessage)
    (user_id : Nat) : List DeleteCall :=
  ((message.attachments.filter (fun a =>
      bot.image_suffixes.contains (String.mk (lowerL (pathSuffix a.url.data))))).map
    (fun a => { image_url := a.url, requester_id := toString user_id }))

/-- `PhotoBot.on_raw_reaction_add` (bot.py lines 208-234), returning the
`delete_photo` calls it issues.  Line 218's author check ends in `pass`
(no effect).  Line 226 evaluates
`('📸', True) in any([(r.emoji, r.me) for r in message.reactions])`;
its `if` body is again `pass`, but evaluating the condition already
raises `TypeError`, which propagates out of the handler. -/
def on_raw_reaction_add (bot : PhotoBot) (payload : ReactionPayload)
    (message : FetchedMessage) : Except PyError (List DeleteCall) := do
  let pairs := message.reactions.map (fun r => PyVal.tuple [.str r.emoji, .bool r.me])
  let _gate ← pyIn (.tuple [.str "📸", .bool true]) (pyAny pairs)
  if payload.emoji == "❌" then
    pure (reaction_deletion_calls bot message payload.user_id)
  else
    pure []

/-! ### Commands (bot.py lines 278-322) -/

/-- Python `list.remove`: drop the first occurrence, `ValueError` when
absent. -/
def listRemove (xs : List String) (x : String) : Except PyError (List String) :=
  if xs.contains x then .ok (xs.erase x) else .error .valueError

/-- Python `str.title()` restricted to ASCII letters: a letter is
uppercased after a non-letter, lowercased otherwise. -/
def titleAux : Bool → List Char → List Char
  | _, [] => []
  | prevAlpha, c :: cs =>
    (if c.isAlpha then (if prevAlpha then c.toLower else c.toUpper) else c) ::
      titleAux c.isAlpha cs

def pyTitle (s : String) : String := String.mk (titleAux false s.data)

/-- `PhotoBot.capture_album` (bot.py lines 278-310): returns the new
registry state and the messages sent to the channel.  `channel_members`
are the ids in `ctx.channel.members`; `respond` is the album endpoint
(status and the `albumUrl` response field). -/
def capture_album (bot : PhotoBot) (st : RegistryState) (channel_id : Nat)
    (channel_members : List Nat) (album_name : String)
    (respond : HttpPost → Nat × Option String) :
    Except PyError (RegistryState × List String) :=
  let cid := toString channel_id
  let is_new := !(channelsGet st.channels cid)
  match listRemove (channel_members.map toString) (toString bot.user) with
  | .error e => .error e
  | .ok members =>
  if is_new && album_name.isEmpty then
    .ok (st, ["Error capturing album. Please provide an album name when capturing a new channel."])
  else
    let st1 := update_capture st cid true
    let album_name1 := pyTitle album_name
    match update_channel bot respond cid album_name1 members with
    | some u =>
      if is_new then
        .ok (st1, ["New album created: " ++ album_name1 ++ ". Photos uploaded to this channel will be captured 📷.",
                    "Album is available at: " ++ u])
      else if album_name1.isEmpty then
        .ok (st1, ["Users in channel updated. Photos uploaded to this channel will still be captured 📷.",
                    "Album is available at: " ++ u])
      else
        .ok (st1, ["Album renamed to: " ++ album_name1 ++ ". Users in channel updated. Photos uploaded to this channel will still be captured 📷.",
                    "Album is available at: " ++ u])
    | none =>
      .ok (st1, ["Error capturing album. Please check the logs for details."])

/-- `PhotoBot.stop_capture_album` (bot.py lines 313-322). -/
def stop_capture_album (st : RegistryState) (channel_id : Nat) :
    RegistryState × List String :=
  (update_capture st (toString channel_id) false,
   ["Photos no longer being captured in this channel."])

/-! ### Helper lemmas -/

theorem takeUntilMem_append (stops : List Char) (s : List Char) :
    (takeUntilMem stops s).1 ++ (takeUntilMem stops s).2 = s := by
  induction s with
  | nil => rfl
  | cons c cs ih =>
    by_cases h : c ∈ stops
    · simp [takeUntilMem, h]
    · simp [takeUntilMem, h, ih]

theorem takeUntilMem_fst_length (stops : List Char) (s : List Char) :
    (takeUntilMem stops s).1.length ≤ s.length := by
  have h := takeUntilMem_append stops s
  have := congrArg List.length h
  simp [List.length_append] at this
  omega

theorem takeUntilMem_length_eq (stops : List Char) (s : List Char) :
    (takeUntilMem stops s).1.length + (takeUntilMem stops s).2.length = s.length := by
  have h := takeUntilMem_append stops s
  have := congrArg List.length h
  simp [List.length_append] at this
  omega

theorem splitFirst_fst_length (sep : Char) (s : List Char) :
    (splitFirst sep s).1.length ≤ s.length := by
  unfold splitFirst
  split
  · next before heq =>
    have h := takeUntilMem_length_eq [sep] s
    rw [heq] at h
    simp at h ⊢
    omega
  · next before c after heq =>
    have h := takeUntilMem_length_eq [sep] s
    rw [heq] at h
    simp at h ⊢
    omega

theorem splitScheme_snd_length (url : List Char) :
    (splitScheme url).2.length ≤ url.length := by
  unfold splitScheme
  split
  · next before t heq =>
    have h := takeUntilMem_length_eq [':'] url
    rw [heq] at h
    simp only [List.length_cons] at h
    match before with
    | [] => simp
    | c :: cs =>
      simp only
      split
      · show t.length ≤ url.length
        simp at h
        omega
      · simp
  · simp

theorem splitNetloc_of_ne (s : List Char) (h : (splitNetloc s).1 ≠ []) :
    (splitNetloc s).1.length + (splitNetloc s).2.length + 2 = s.length := by
  unfold splitNetloc at *
  split at h
  · next t =>
    have := takeUntilMem_length_eq ['/', '?', '#'] t
    simp
    omega
  · simp at h

theorem dropParams_length (p : List Char) :
    (dropParams p).length ≤ p.length := by
  unfold dropParams
  split
  · next revSeg revBefore heq =>
    have htake := takeUntilMem_length_eq [';'] revSeg.reverse
    have hsp : revSeg.length + 1 + revBefore.length = p.length := by
      unfold splitFirst at heq
      split at heq
      · simp at heq
      · next before c after heq2 =>
        have h2 := takeUntilMem_length_eq ['/'] p.reverse
        rw [heq2] at h2
        cases heq
        simp at h2
        omega
    simp only [List.length_append, List.length_cons, List.length_reverse] at htake ⊢
    omega
  · next heq =>
    have h := takeUntilMem_length_eq [';'] p
    omega

theorem urlparsePath_length_lt (url : List Char)
    (h : (urlsplit url).netloc ≠ []) :
    (urlparsePath url).length < url.length := by
  have hnl : (splitNetloc (splitScheme url).2).1 ≠ [] := h
  have h1 := splitNetloc_of_ne (splitScheme url).2 hnl
  have h2 := splitScheme_snd_length url
  have h3 := splitFirst_fst_length '#' (splitNetloc (splitScheme url).2).2
  have h4 := splitFirst_fst_length '?' (splitFirst '#' (splitNetloc (splitScheme url).2).2).1
  have hp : (urlsplit url).path.length < url.length := by
    show (splitFirst '?' (splitFirst '#' (splitNetloc (splitScheme url).2).2).1).1.length < url.length
    have : (splitNetloc (splitScheme url).2).1.length ≥ 0 := Nat.zero_le _
    omega
  by_cases hc : (urlsplit url).scheme ∈ usesParams ∧ ';' ∈ (urlsplit url).path
  · simpa [urlparsePath, hc] using Nat.lt_of_le_of_lt (dropParams_length _) hp
  · simpa [urlparsePath, hc] using hp

theorem channelsGet_setKey (m : Registry) (k : String) (v : Bool) :
    channelsGet (setKey m k v) k = v := by
  induction m with
  | nil => simp [setKey, channelsGet]
  | cons p rest ih =>
    unfold setKey
    by_cases h : p.1 = k
    · simp [h, channelsGet]
    · simp [h, channelsGet, ih]

theorem channelsGet_of_absent (m : Registry) (k : String)
    (h : ∀ p ∈ m, p.1 ≠ k) : channelsGet m k = false := by
  induction m with
  | nil => rfl
  | cons p rest ih =>
    have hp : p.1 ≠ k := h p (by simp)
    simp only [channelsGet, if_neg hp]
    exact ih (fun q hq => h q (by simp [hq]))

theorem mem_setKey (m : Registry) (k : String) (v : Bool) (p : String × Bool)
    (h : p ∈ setKey m k v) : p.1 = k ∨ p ∈ m := by
  induction m with
  | nil => simp [setKey] at h; simp [h]
  | cons q rest ih =>
    unfold setKey at h
    by_cases hq : q.1 = k
    · simp [hq] at h
      rcases h with h | h
      · left; simp [h]
      · right; simp [h]
    · simp [hq] at h
      rcases h with h | h
      · right; simp [h]
      · rcases ih h with h1 | h1
        · left; exact h1
        · right; simp [h1]

/-! ### Round-trip of the channels file through json.dump / json.load -/

/-- Characters that `json.dump` emits verbatim inside a string and
`json.load` reads back verbatim: printable ASCII other than the quote and
the backslash.  Channel ids (`str` of an integer) are of this kind. -/
def plainCharP (c : Char) : Prop :=
  c ≠ '"' ∧ c ≠ '\\' ∧ 0x20 ≤ c.toNat ∧ c.toNat < 0x7f

instance (c : Char) : Decidable (plainCharP c) := by
  unfold plainCharP
  infer_instance

theorem escapeJsonChar_plain (c : Char) (h : plainCharP c) :
    escapeJsonChar c = [c] := by
  obtain ⟨h1, h2, h3, h4⟩ := h
  unfold escapeJsonChar
  rw [if_neg h1, if_neg h2,
      if_neg (fun hc => absurd (hc ▸ h3) (by decide)),
      if_neg (fun hc => absurd (hc ▸ h3) (by decide)),
      if_neg (fun hc => absurd (hc ▸ h3) (by decide)),
      if_neg (fun hc => absurd (hc ▸ h3) (by decide)),
      if_neg (fun hc => absurd (hc ▸ h3) (by decide)),
      if_neg (by omega), if_pos h4]

theorem escape_flatten_plain (l : List Char) (h : ∀ c ∈ l, plainCharP c) :
    (l.map escapeJsonChar).flatten = l := by
  induction l with
  | nil => rfl
  | cons c cs ih =>
    simp only [List.map_cons, List.flatten_cons,
      escapeJsonChar_plain c (h c (by simp))]
    rw [ih (fun d hd => h d (by simp [hd]))]
    rfl

theorem dumpStringL_plain (s : String) (h : ∀ c ∈ s.data, plainCharP c) :
    dumpStringL s = '"' :: s.data ++ ['"'] := by
  unfold dumpStringL
  rw [escape_flatten_plain s.data h]

theorem skipWs_not_ws (c : Char) (cs : List Char) (h : isJsonWs c = false) :
    skipWs (c :: cs) = c :: cs := by
  simp [skipWs, h]

theorem skipWs_space (cs : List Char) : skipWs (' ' :: cs) = skipWs cs := by
  simp [skipWs, isJsonWs]

theorem parseStringBody_plain (k : List Char) (hk : ∀ c ∈ k, plainCharP c) :
    ∀ (fuel : Nat) (rest : List Char), k.length < fuel →
      parseStringBody fuel (k ++ '"' :: rest) = some (k, rest) := by
  induction k with
  | nil =>
    intro fuel rest hf
    match fuel, hf with
    | f + 1, _ => rfl
  | cons c k' ih =>
    intro fuel rest hf
    match fuel, hf with
    | f + 1, hf =>
      obtain ⟨h1, h2, h3, _⟩ := hk c (by simp)
      show parseStringBody (f + 1) (c :: (k' ++ '"' :: rest)) = _
      simp only [parseStringBody]
      rw [if_neg h1, if_neg h2, if_neg (by omega)]
      rw [ih (fun d hd => hk d (by simp [hd])) f rest (by simpa using hf)]
      rfl

theorem parseValue_dumpBool (b : Bool) (fuel : Nat) (hf : 0 < fuel)
    (rest : List Char) :
    parseValue fuel (' ' :: (dumpBoolL b ++ rest)) = some (.bool b, rest) := by
  match fuel, hf with
  | f + 1, _ => cases b <;> rfl

theorem parseObjMembers_space (f : Nat) (s : List Char) :
    parseObjMembers (f + 1) (' ' :: s) = parseObjMembers (f + 1) s := by
  simp only [parseObjMembers, skipWs_space]

/-- Parsing one dumped `"key": bool` member with plain key characters:
the continuation decides on the character after the member. -/
theorem parseObjMembers_entry (k : List Char) (hk : ∀ c ∈ k, plainCharP c)
    (f : Nat) (hf : k.length + 5 < f) (b : Bool) (tail : List Char) :
    parseObjMembers (f + 1)
      ('"' :: (k ++ '"' :: ':' :: ' ' :: (dumpBoolL b ++ tail))) =
      (match skipWs tail with
       | ',' :: r4 =>
         Option.map (fun p => ((String.mk k, Json.bool b) :: p.1, p.2))
           (parseObjMembers f r4)
       | '\x7d' :: r4 => some ([(String.mk k, Json.bool b)], r4)
       | _ => none) := by
  simp only [parseObjMembers]
  rw [skipWs_not_ws _ _ (by decide)]
  conv_lhs => whnf
  rw [parseStringBody_plain k hk f _ (by omega)]
  conv_lhs => whnf
  rw [parseValue_dumpBool b f (by omega)]

/-- Parsing back a dumped non-empty channels map with plain keys yields
exactly the entries that were written. -/
theorem parseObjMembers_dump (m : Registry) :
    m ≠ [] → (∀ p ∈ m, ∀ c ∈ p.1.data, plainCharP c) →
    ∀ (fuel : Nat) (rest : List Char), (dumpEntriesL m).length < fuel →
      parseObjMembers fuel (dumpEntriesL m ++ '\x7d' :: rest) =
        some (m.map (fun p => (p.1, Json.bool p.2)), rest) := by
  induction m with
  | nil => intro hne; exact absurd rfl hne
  | cons e es ih =>
    obtain ⟨ek, eb⟩ := e
    intro _ hkeys fuel rest hf
    have hkey : ∀ c ∈ ek.data, plainCharP c := hkeys (ek, eb) (by simp)
    have hent : ek.data.length + 8 ≤ (dumpEntryL (ek, eb)).length := by
      cases eb <;>
        simp [dumpEntryL, dumpStringL_plain ek hkey, dumpBoolL, List.length_append]
    cases es with
    | nil =>
      have hlen : (dumpEntriesL [(ek, eb)]).length = (dumpEntryL (ek, eb)).length := by
        simp [dumpEntriesL]
      obtain ⟨f, rfl⟩ : ∃ f, fuel = f + 1 := ⟨fuel - 1, by omega⟩
      have hin : dumpEntriesL [(ek, eb)] ++ '\x7d' :: rest =
          '"' :: (ek.data ++ '"' :: ':' :: ' ' :: (dumpBoolL eb ++ '\x7d' :: rest)) := by
        simp [dumpEntriesL, dumpEntryL, dumpStringL_plain ek hkey]
      rw [hin, parseObjMembers_entry ek.data hkey f (by omega) eb]
      rw [skipWs_not_ws _ _ (by decide)]
      rfl
    | cons e2 es2 =>
      have hsum : (dumpEntriesL ((ek, eb) :: e2 :: es2)).length =
          (dumpEntryL (ek, eb)).length + 2 + (dumpEntriesL (e2 :: es2)).length := by
        simp [dumpEntriesL, List.length_append]
        omega
      obtain ⟨f, rfl⟩ : ∃ f, fuel = f + 1 := ⟨fuel - 1, by omega⟩
      have hin : dumpEntriesL ((ek, eb) :: e2 :: es2) ++ '\x7d' :: rest =
          '"' :: (ek.data ++ '"' :: ':' :: ' ' ::
            (dumpBoolL eb ++ ',' :: ' ' :: (dumpEntriesL (e2 :: es2) ++ '\x7d' :: rest))) := by
        simp [dumpEntriesL, dumpEntryL, dumpStringL_plain ek hkey]
      rw [hin, parseObjMembers_entry ek.data hkey f (by omega) eb]
      rw [skipWs_not_ws _ _ (by decide)]
      obtain ⟨f2, rfl⟩ : ∃ f2, f = f2 + 1 := ⟨f - 1, by omega⟩
      show Option.map _ (parseObjMembers (f2 + 1) (' ' :: (dumpEntriesL (e2 :: es2) ++ '\x7d' :: rest))) = _
      rw [parseObjMembers_space]
      rw [ih (by simp) (fun p hp => hkeys p (by simp [hp])) (f2 + 1) rest (by omega)]
      rfl

/-- `parseValue` on an object whose body does not open with a closing
brace delegates to `parseObjMembers`. -/
theorem parseValue_obj_step (f : Nat) (body : List Char) (c : Char)
    (cs : List Char) (hbody : skipWs body = c :: cs) (hc : c ≠ '\x7d') :
    parseValue (f + 1) ('\x7b' :: body) =
      Option.map (fun p => (Json.obj p.1, p.2)) (parseObjMembers f body) := by
  conv_lhs => whnf
  rw [hbody]
  split
  · next heq => exact absurd ((List.cons.inj heq).1) hc
  · rfl

/-- `json.load` inverts `json.dump` on the channels map, key for key,
when the keys consist of plain printable ASCII (channel ids are decimal
digits). -/
theorem jsonParse_dumpChannels (m : Registry)
    (h : ∀ p ∈ m, ∀ c ∈ p.1.data, plainCharP c) :
    jsonParse (dumpChannels m) =
      some (.obj (m.map (fun p => (p.1, Json.bool p.2)))) := by
  cases m with
  | nil => rfl
  | cons e es =>
    obtain ⟨ek, eb⟩ := e
    have hkey : ∀ c ∈ ek.data, plainCharP c := h (ek, eb) (by simp)
    have hdata : (dumpChannels ((ek, eb) :: es)).data =
        '\x7b' :: (dumpEntriesL ((ek, eb) :: es) ++ '\x7d' :: []) := by
      show dumpChannelsL ((ek, eb) :: es) = _
      simp [dumpChannelsL]
    have hlen : (dumpChannels ((ek, eb) :: es)).length =
        (dumpEntriesL ((ek, eb) :: es)).length + 2 := by
      show (dumpChannelsL ((ek, eb) :: es)).length = _
      simp [dumpChannelsL]
    have hhead : ∃ t, dumpEntriesL ((ek, eb) :: es) = '"' :: t := by
      cases es with
      | nil =>
        exact ⟨ek.data ++ '"' :: ':' :: ' ' :: dumpBoolL eb,
          by simp [dumpEntriesL, dumpEntryL, dumpStringL_plain ek hkey]⟩
      | cons e2 es2 =>
        exact ⟨ek.data ++ '"' :: ':' :: ' ' ::
            (dumpBoolL eb ++ ',' :: ' ' :: dumpEntriesL (e2 :: es2)),
          by simp [dumpEntriesL, dumpEntryL, dumpStringL_plain ek hkey]⟩
    obtain ⟨t, ht⟩ := hhead
    have hbody : skipWs (dumpEntriesL ((ek, eb) :: es) ++ '\x7d' :: []) =
        '"' :: (t ++ '\x7d' :: []) := by
      rw [ht]
      exact skipWs_not_ws _ _ (by decide)
    simp only [jsonParse]
    rw [hlen, hdata]
    rw [show (2 * ((dumpEntriesL ((ek, eb) :: es)).length + 2) + 2 : Nat)
          = (2 * ((dumpEntriesL ((ek, eb) :: es)).length + 2) + 1) + 1 from rfl]
    rw [parseValue_obj_step _ _ '"' _ hbody (by decide)]
    rw [parseObjMembers_dump ((ek, eb) :: es) (by simp) h _ [] (by omega)]
    rfl

/-- Claim C7 (confirmed).  Setting a channel's capture flag to true and
then to false leaves the registry reporting false for it; each
`update_capture` call rewrites the backing file with the dump of the full
in-memory map (bot.py lines 139-141); and `json.load`ing the written file
returns exactly the written map (keys restricted to plain printable
ASCII, which covers the decimal channel ids the bot uses). -/
theorem C7_update_capture_roundtrip (st : RegistryState) (c : String)
    (hc : ∀ ch ∈ c.data, plainCharP ch)
    (hkeys : ∀ p ∈ st.channels, ∀ ch ∈ p.1.data, plainCharP ch) :
    channelsGet (update_capture (update_capture st c true) c false).channels c = false ∧
    (update_capture st c true).channelsFile =
      some (dumpChannels (update_capture st c true).channels) ∧
    (update_capture (update_capture st c true) c false).channelsFile =
      some (dumpChannels (update_capture (update_capture st c true) c false).channels) ∧
    jsonParse (dumpChannels (update_capture st c true).channels) =
      some (.obj ((update_capture st c true).channels.map
        (fun p => (p.1, Json.bool p.2)))) ∧
    jsonParse (dumpChannels (update_capture (update_capture st c true) c false).channels) =
      some (.obj ((update_capture (update_capture st c true) c false).channels.map
        (fun p => (p.1, Json.bool p.2)))) := by
  have hk1 : ∀ p ∈ setKey st.channels c true, ∀ ch ∈ p.1.data, plainCharP ch := by
    intro p hp
    rcases mem_setKey _ _ _ _ hp with h1 | h1
    · rw [h1]; exact hc
    · exact hkeys p h1
  have hk2 : ∀ p ∈ setKey (setKey st.channels c true) c false,
      ∀ ch ∈ p.1.data, plainCharP ch := by
    intro p hp
    rcases mem_setKey _ _ _ _ hp with h1 | h1
    · rw [h1]; exact hc
    · exact hk1 p h1
  exact ⟨channelsGet_setKey _ _ _, rfl, rfl,
    jsonParse_dumpChannels _ hk1, jsonParse_dumpChannels _ hk2⟩

/-- Witness for C7 at a concrete input: channel id 12345 on an initially
empty registry; the final file is the dump of the one-entry map and loads
back as exactly that map. -/
theorem C7_update_capture_roundtrip_witness :
    channelsGet (update_capture (update_capture ⟨[], none⟩ "12345" true) "12345" false).channels
      "12345" = false ∧
    jsonParse (dumpChannels (update_capture (update_capture ⟨[], none⟩ "12345" true)
        "12345" false).channels) =
      some (.obj ((update_capture (update_capture ⟨[], none⟩ "12345" true)
        "12345" false).channels.map (fun p => (p.1, Json.bool p.2)))) := by
  have h := C7_update_capture_roundtrip ⟨[], none⟩ "12345" (by decide) (by simp)
  exact ⟨h.1, h.2.2.2.2⟩

/-- Claim C8 (confirmed).  At initialisation (bot.py lines 67-72) a
missing channels file yields the empty registry, while an existing file
that `json.load` cannot parse propagates the decode error: the load is
not wrapped in any exception handler, so the registry is never silently
reset. -/
theorem C8_init_missing_or_invalid :
    initChannels none = .ok (.obj []) ∧
    (∀ s : String, jsonParse s = none →
      initChannels (some s) = .error .jsonDecodeError) ∧
    initChannels (some "\x7b\"5\": true") = .error .jsonDecodeError ∧
    initChannels (some "not json") = .error .jsonDecodeError ∧
    initChannels (some (dumpChannels [("5", true)])) =
      .ok (.obj [("5", .bool true)]) := by
  refine ⟨rfl, ?_, rfl, rfl, rfl⟩
  intro s h
  unfold initChannels
  conv_lhs => whnf
  rw [h]

/-- Witness for C8 at a concrete input: a truncated JSON document
propagates the decode error. -/
theorem C8_init_missing_or_invalid_witness :
    initChannels (some "[1,") = .error .jsonDecodeError :=
  C8_init_missing_or_invalid.2.1 "[1," rfl

/-- Claim C1 (code_bug).  The claim — deletion requests are gated on the
message already bearing the bot's own 📸 reaction, and a reaction on a
message without it yields zero `delete_photo` calls — matches the
source's own comments and docstring, but the code cannot implement it:
the gate on bot.py line 226 evaluates
`('📸', True) in any([(r.emoji, r.me) for r in message.reactions])`,
where `any` returns a `bool` and membership in a `bool` raises
`TypeError`, so the handler aborts on every reaction event (and both
ignore-checks end in `pass`, so they would not short-circuit anyway).
Shown at a concrete failing input: a ❌ reaction on a message that does
bear the bot's 📸 reaction and carries a `.jpg` attachment — the
spec expects a deletion request, the handler raises instead; the same
happens without the 📸 reaction; the deletion comprehension itself
would have produced one call. -/
theorem C1_reaction_gate_raises :
    on_raw_reaction_add (PhotoBot.init "http://db/" 999)
      { emoji := "❌", user_id := 42, member_is_bot := false }
      { reactions := [{ emoji := "📸", me := true }],
        attachments := [{ url := "https://h/p.jpg" }] } =
      .error .typeError ∧
    on_raw_reaction_add (PhotoBot.init "http://db/" 999)
      { emoji := "❌", user_id := 42, member_is_bot := false }
      { reactions := [], attachments := [{ url := "https://h/p.jpg" }] } =
      .error .typeError ∧
    reaction_deletion_calls (PhotoBot.init "http://db/" 999)
      { reactions := [{ emoji := "📸", me := true }],
        attachments := [{ url := "https://h/p.jpg" }] } 42 =
      [{ image_url := "https://h/p.jpg", requester_id := "42" }] :=
  ⟨rfl, rfl, rfl⟩

/-- Claim C2 (code_bug).  The claim says `delete_photo` posts to the
deletion endpoint derived at construction (base + `delete_photo_by_url`).
`__init__` does derive `self.delete_photo_url` that way (bot.py line 65),
but `delete_photo` never uses it: line 158 posts to `self.album_url`.
The body and the returned raw status code are as claimed. -/
theorem C2_delete_photo_posts_to_album_url :
    (delete_photo_post (PhotoBot.init "http://db/" 999) "https://h/p.jpg" "42").url =
      "http://db/album" ∧
    (PhotoBot.init "http://db/" 999).delete_photo_url = "http://db/delete_photo_by_url" ∧
    (delete_photo_post (PhotoBot.init "http://db/" 999) "https://h/p.jpg" "42").url ≠
      (PhotoBot.init "http://db/" 999).delete_photo_url ∧
    (delete_photo_post (PhotoBot.init "http://db/" 999) "https://h/p.jpg" "42").body =
      [("photoId", .str "https://h/p.jpg"), ("requesterId", .str "42")] ∧
    (∀ (respond : HttpPost → Nat) (u r : String),
      delete_photo (PhotoBot.init "http://db/" 999) respond u r =
        respond (delete_photo_post (PhotoBot.init "http://db/" 999) u r)) :=
  ⟨rfl, rfl, by decide, rfl, fun _ _ _ => rfl⟩

set_option maxRecDepth 100000 in
/-- Claim C3 (code_bug).  Of the four claimed record fields, uploaderId,
caption (a hard 100-character cut) and messageId are as claimed, but
uploadTime is not the message's creation time: bot.py line 193 writes
`message.created_at.utcnow()`, and `datetime.utcnow` is a classmethod
that ignores the instance and returns the current wall-clock time.  At a
concrete input where the message was created at 00:00:00 and is processed
at 00:05:00, the submitted record carries the processing time. -/
theorem C3_upload_time_is_wall_clock :
    (on_message (PhotoBot.init "http://db/" 999) [("5", true)]
      { author := 7, channel_id := 5, id := 99,
        content := String.mk (List.replicate 150 'a'),
        created_at := ⟨2024, 1, 1, 0, 0, 0, 0⟩,
        attachments := [{ url := "https://h/p.jpg" }] }
      ⟨2024, 1, 1, 0, 5, 0, 123⟩ (fun _ => 200)).handled =
      [{ image_url := "/p.jpg", channel_id := "5", uploader_id := "7",
         upload_time := "2024-01-01T00:05:00Z",
         caption := String.mk (List.replicate 100 'a'), message_id := "99" }] ∧
    isoformat (⟨2024, 1, 1, 0, 0, 0, 0⟩ : PyDatetime) ++ "Z" = "2024-01-01T00:00:00Z" ∧
    ("2024-01-01T00:05:00Z" : String) ≠ "2024-01-01T00:00:00Z" := by
  refine ⟨?_, rfl, by decide⟩
  decide

/-- Claim C5 (confirmed).  A non-bot message in a channel whose capture
flag is absent from the registry or stored as false produces zero
`handle_image` submissions and zero reactions, and still reaches
`process_commands` (bot.py lines 183-187). -/
theorem C5_capture_disabled_is_noop (bot : PhotoBot) (channels : Registry)
    (msg : Message) (now : PyDatetime) (respond : HttpPost → Nat)
    (hauthor : msg.author ≠ bot.user)
    (hcap : (∀ p ∈ channels, p.1 ≠ toString msg.channel_id) ∨
            channelsGet channels (toString msg.channel_id) = false) :
    on_message bot channels msg now respond =
      { handled := [], reactions := [], processed_commands := true } := by
  have hfalse : channelsGet channels (toString msg.channel_id) = false := by
    rcases hcap with h | h
    · exact channelsGet_of_absent _ _ h
    · exact h
  unfold on_message
  rw [if_neg (by simpa using hauthor)]
  rw [if_pos (by simp [hfalse])]

/-- Witness for C5 at a concrete input: author 7, bot user 999, empty
registry. -/
theorem C5_capture_disabled_is_noop_witness :
    on_message (PhotoBot.init "http://db/" 999) []
      { author := 7, channel_id := 5, id := 99, content := "hi",
        created_at := ⟨2024, 1, 1, 0, 0, 0, 0⟩,
        attachments := [{ url := "https://h/p.jpg" }] }
      ⟨2024, 1, 1, 0, 5, 0, 0⟩ (fun _ => 200) =
      { handled := [], reactions := [], processed_commands := true } :=
  C5_capture_disabled_is_noop _ _ _ _ _ (by decide) (Or.inl (by simp))

/-- Claim C4 (confirmed).  `on_message` adds the 📸 reaction exactly when
at least one `handle_image` submission returned true, and never adds more
than one reaction (bot.py lines 198-202). -/
theorem C4_reaction_iff_any_success (bot : PhotoBot) (channels : Registry)
    (msg : Message) (now : PyDatetime) (respond : HttpPost → Nat) :
    ((on_message bot channels msg now respond).reactions ≠ [] ↔
      ∃ r ∈ (on_message bot channels msg now respond).handled,
        handle_image bot respond r.image_url r.channel_id r.uploader_id
          r.upload_time r.caption r.message_id = true) ∧
    ((on_message bot channels msg now respond).reactions = [] ∨
      (on_message bot channels msg now respond).reactions = ["📸"]) := by
  unfold on_message
  split
  · simp
  · split
    · simp
    · simp only [List.any_map]
      constructor
      · split
        · next h =>
          simp only [List.any_eq_true, Function.comp, id] at h
          simpa using h
        · next h =>
          simp only [List.any_eq_true, Function.comp, id] at h
          simpa using h
      · split
        · right; rfl
        · left; rfl

set_option maxRecDepth 100000 in
/-- Witness for C4 at a concrete input: two attachments, the first
submission succeeds (200) and the second fails (500); exactly one 📸
reaction is added. -/
theorem C4_reaction_iff_any_success_witness :
    (on_message (PhotoBot.init "http://db/" 999) [("5", true)]
      { author := 7, channel_id := 5, id := 99, content := "hi",
        created_at := ⟨2024, 1, 1, 0, 0, 0, 0⟩,
        attachments := [{ url := "https://h/a.jpg" }, { url := "https://h/b.jpg" }] }
      ⟨2024, 1, 1, 0, 5, 0, 0⟩
      (fun p => match p.body with
        | (_, Json.str u) :: _ => if u = "/a.jpg" then 200 else 500
        | _ => 500)).reactions = ["📸"] := by
  have h := C4_reaction_iff_any_success (PhotoBot.init "http://db/" 999) [("5", true)]
    { author := 7, channel_id := 5, id := 99, content := "hi",
      created_at := ⟨2024, 1, 1, 0, 0, 0, 0⟩,
      attachments := [{ url := "https://h/a.jpg" }, { url := "https://h/b.jpg" }] }
    ⟨2024, 1, 1, 0, 5, 0, 0⟩
    (fun p => match p.body with
      | (_, Json.str u) :: _ => if u = "/a.jpg" then 200 else 500
      | _ => 500)
  rcases h.2 with h2 | h2
  · exfalso
    refine h.1.mpr ⟨⟨"/a.jpg", "5", "7", "2024-01-01T00:05:00Z", "hi", "99"⟩, ?_, ?_⟩ h2
    · decide
    · decide
  · exact h2

/-- Claim C6 (confirmed).  Every `handle_image` submission of
`on_message` arises from an attachment whose extension — taken
case-insensitively from the parsed URL path (bot.py line 190) — is in
the allow-list {.jpg, .jpeg, .webp, .png} (bot.py line 66); a concrete
instance shows the query string does not disturb suffix detection. -/
theorem C6_extension_allowlist (db_url : String) (user : Nat)
    (channels : Registry) (msg : Message) (now : PyDatetime)
    (respond : HttpPost → Nat) :
    (∀ r ∈ (on_message (PhotoBot.init db_url user) channels msg now respond).handled,
      ∃ a ∈ msg.attachments,
        r.image_url = String.mk (urlparsePath a.url.data) ∧
        String.mk (lowerL (pathSuffix (urlparsePath a.url.data))) ∈
          [".jpg", ".jpeg", ".webp", ".png"]) ∧
    String.mk (urlparsePath "https://h/p.JPG?ex=66&hm=1".data) = "/p.JPG" ∧
    String.mk (lowerL (pathSuffix (urlparsePath "https://h/p.JPG?ex=66&hm=1".data))) = ".jpg" := by
  refine ⟨?_, by decide, by decide⟩
  intro r hr
  unfold on_message at hr
  split at hr
  · simp at hr
  · split at hr
    · simp at hr
    · simp only [List.map_map, List.mem_map] at hr
      obtain ⟨a, ha, rfl⟩ := hr
      have hmem := (List.mem_filter.mp ha).1
      have hq := (List.mem_filter.mp ha).2
      unfold attachmentQualifies at hq
      refine ⟨a, hmem, rfl, ?_⟩
      simpa [PhotoBot.init, List.elem_iff] using hq

set_option maxRecDepth 100000 in
/-- Witness for C6 at a concrete input: of two attachments only the
`.JPG` one (query string and all) is submitted, as `/p.JPG`. -/
theorem C6_extension_allowlist_witness :
    ∃ a ∈ [(⟨"https://h/p.JPG?ex=66&hm=1"⟩ : Attachment), ⟨"https://h/d.txt"⟩],
      ("/p.JPG" : String) = String.mk (urlparsePath a.url.data) ∧
      String.mk (lowerL (pathSuffix (urlparsePath a.url.data))) ∈
        [".jpg", ".jpeg", ".webp", ".png"] := by
  have h := (C6_extension_allowlist "http://db/" 999 [("5", true)]
    { author := 7, channel_id := 5, id := 99, content := "hi",
      created_at := ⟨2024, 1, 1, 0, 0, 0, 0⟩,
      attachments := [⟨"https://h/p.JPG?ex=66&hm=1"⟩, ⟨"https://h/d.txt"⟩] }
    ⟨2024, 1, 1, 0, 5, 0, 0⟩ (fun _ => 200)).1
  exact h ⟨"/p.JPG", "5", "7", "2024-01-01T00:05:00Z", "hi", "99"⟩ (by decide)

/-- Claim C10 (confirmed).  `on_message` submits only the path component
of each attachment URL (bot.py line 190), while the deletion
comprehension passes the full attachment URL to `delete_photo` as
photoId (bot.py lines 231-232, 157); for a URL with non-empty netloc the
two can never coincide, since the parsed path is strictly shorter than
the URL. -/
theorem C10_submitted_path_vs_deletion_full_url :
    (∀ (bot : PhotoBot) (channels : Registry) (msg : Message)
        (now : PyDatetime) (respond : HttpPost → Nat),
      ∀ r ∈ (on_message bot channels msg now respond).handled,
        ∃ a ∈ msg.attachments, r.image_url = String.mk (urlparsePath a.url.data)) ∧
    (∀ (bot : PhotoBot) (message : FetchedMessage) (user_id : Nat),
      ∀ d ∈ reaction_deletion_calls bot message user_id,
        ∃ a ∈ message.attachments, d.image_url = a.url) ∧
    (∀ (bot : PhotoBot) (u rid : String),
      (delete_photo_post bot u rid).body.head? = some ("photoId", Json.str u)) ∧
    (∀ url : String, (urlsplit url.data).netloc ≠ [] →
      String.mk (urlparsePath url.data) ≠ url) := by
  refine ⟨?_, ?_, fun _ _ _ => rfl, ?_⟩
  · intro bot channels msg now respond r hr
    unfold on_message at hr
    split at hr
    · simp at hr
    · split at hr
      · simp at hr
      · simp only [List.map_map, List.mem_map] at hr
        obtain ⟨a, ha, rfl⟩ := hr
        exact ⟨a, (List.mem_filter.mp ha).1, rfl⟩
  · intro bot message user_id d hd
    unfold reaction_deletion_calls at hd
    simp only [List.mem_map] at hd
    obtain ⟨a, ha, rfl⟩ := hd
    exact ⟨a, (List.mem_filter.mp ha).1, rfl⟩
  · intro url h heq
    have hlt := urlparsePath_length_lt url.data h
    have hdata : urlparsePath url.data = url.data := congrArg String.data heq
    rw [hdata] at hlt
    exact Nat.lt_irrefl _ hlt

/-- Witness for C10 at a concrete input: for the attachment URL
`https://h/p.jpg` the submitted path `/p.jpg` differs from the full URL
sent for deletion. -/
theorem C10_submitted_path_vs_deletion_full_url_witness :
    String.mk (urlparsePath "https://h/p.jpg".data) ≠ "https://h/p.jpg" :=
  C10_submitted_path_vs_deletion_full_url.2.2.2 "https://h/p.jpg" (by decide)

/-- Claim C9 (confirmed).  Invoking `capture_album` on a channel with no
prior registry entry and an empty album name sends exactly the rejection
message and leaves the registry state (map and backing file) unchanged:
the source returns before `update_capture` (bot.py lines 286-295).  The
bot must appear in the channel member list, since line 289's
`members.remove` runs before the check and would raise `ValueError`
otherwise. -/
theorem C9_first_capture_requires_album_name (bot : PhotoBot)
    (st : RegistryState) (channel_id : Nat) (channel_members : List Nat)
    (respond : HttpPost → Nat × Option String)
    (habsent : ∀ p ∈ st.channels, p.1 ≠ toString channel_id)
    (hbot : bot.user ∈ channel_members) :
    capture_album bot st channel_id channel_members "" respond =
      .ok (st, ["Error capturing album. Please provide an album name when capturing a new channel."]) := by
  have hfalse : channelsGet st.channels (toString channel_id) = false :=
    channelsGet_of_absent _ _ habsent
  have hok : listRemove (channel_members.map toString) (toString bot.user) =
      .ok ((channel_members.map toString).erase (toString bot.user)) := by
    unfold listRemove
    rw [if_pos (by simpa using List.mem_map_of_mem toString hbot)]
  unfold capture_album
  rw [hok]
  simp [hfalse, show ("" : String).isEmpty = true from rfl]

/-- Witness for C9 at a concrete input: empty registry, bot user 999
present in the channel. -/
theorem C9_first_capture_requires_album_name_witness :
    capture_album (PhotoBot.init "http://db/" 999) ⟨[], none⟩ 5 [999, 7] ""
      (fun _ => (200, some "http://alb")) =
      .ok (⟨[], none⟩, ["Error capturing album. Please provide an album name when capturing a new channel."]) :=
  C9_first_capture_requires_album_name _ _ _ _ _ (by simp) (by decide)
